import Mathlib

/-!
Verification development for the dsync repository (sync_service package and
sync5.py): a shallow embedding of the synchronization and conflict-resolution
engine (`SyncHandler` in src/sync_service/core/handler.py together with the
initial-sync driver in src/sync_service/cli/main.py), plus theorems checking
the natural-language specification against it.

Modelling conventions:
- a filesystem path is a list of name segments; a name segment is a `List Char`
  (string literals are written `"...".data`);
- the filesystem is a finite association list of files plus a list of existing
  directories; file content is an abstract `Nat` (the MD5 digest of
  `calculate_file_hash` is modelled as the content value itself, since the
  program only ever compares digests for equality);
- wall-clock timestamps (`datetime.now().strftime(...)`) are an explicit
  `now` argument;
- fallible I/O (`shutil.copy2`, `shutil.move`) is modelled with an oracle
  saying which operations raise `OSError`; an escaped exception is a `raised`
  flag in the result, and Python's `try/finally` blocks become explicit
  result construction.
-/

/-- A path segment (one file or directory name), as its character list. -/
abbrev Seg := List Char

/-- An absolute path, as the list of its segments from the filesystem root. -/
abbrev FPath := List Seg

/-- Length of the longest common leading segment run of two paths
(the common-prefix computation inside `os.path.relpath`). -/
def commonPrefixLen : FPath → FPath → Nat
  | a :: as, b :: bs => if a = b then commonPrefixLen as bs + 1 else 0
  | _, _ => 0

/-- `os.path.relpath(p, start)` on absolute segment lists: climb out of the
non-shared part of `start` with `..` segments, then descend into `p`.
`os.path.relpath` returns `"."` when the two paths are equal. -/
def relpathSegs (p start : FPath) : FPath :=
  let k := commonPrefixLen p start
  let r := List.replicate (start.length - k) "..".data ++ p.drop k
  if r = [] then [".".data] else r

/-- `pathlib.Path(rel).parts` for the outputs of `relpathSegs`:
the path `"."` has no parts. -/
def pathParts (rel : FPath) : FPath :=
  if rel = [".".data] then [] else rel

/-- Whether a segment starts with the hidden-file marker
(`part.startswith('.')` at handler.py:62). -/
def startsWithDot (seg : Seg) : Bool :=
  match seg with
  | [] => false
  | c :: _ => c = '.'

/-- Shell-glob matching of `fnmatch.fnmatch` (handler.py:66), for patterns
built from `*`, `?` and literal characters; `[...]` character classes are not
used by any property checked here and are treated as literal characters. -/
def globMatch : Seg → Seg → Bool
  | [], [] => true
  | '*' :: ps, [] => globMatch ps []
  | '*' :: ps, c :: cs => globMatch ps (c :: cs) || globMatch ('*' :: ps) cs
  | '?' :: ps, _ :: cs => globMatch ps cs
  | p :: ps, c :: cs => (p = c) && globMatch ps cs
  | _ :: _, [] => false
  | [], _ :: _ => false
termination_by p s => (p.length, s.length)

/-- The string `fnmatch` sees: the relative path's segments joined with `/`. -/
def joinSegs (rel : FPath) : Seg :=
  List.intercalate "/".data rel

/-- `fnmatch.fnmatch(name, pattern)` (posix `normcase` is the identity). -/
def fnmatchB (name pat : Seg) : Bool :=
  globMatch pat name

/-- Index of the last `.` in a name, if any (the `rfind` of
CPython's `_splitext`). -/
def lastDotIdx (name : Seg) : Option Nat :=
  match name.reverse.findIdx? (fun c => c = '.') with
  | none => none
  | some j => some (name.length - 1 - j)

/-- `os.path.splitext` restricted to a basename: split at the last dot,
unless every character before it is itself a dot (so `.bashrc` has no
extension), exactly as CPython's `genericpath._splitext` does. -/
def splitextName (name : Seg) : Seg × Seg :=
  match lastDotIdx name with
  | none => (name, [])
  | some i =>
    if (name.take i).any (fun c => c ≠ '.') then (name.take i, name.drop i)
    else (name, [])

/-- The keyword arguments passed to `str.format` at handler.py:92-96. -/
structure DupFields where
  original_name : Seg
  timestamp : Seg
  ext : Seg

/-- Field lookup for `str.format`; the only fields the program ever supplies. -/
def lookupField (f : DupFields) : Seg → Seg
  | fld =>
    if fld = "original_name".data then f.original_name
    else if fld = "timestamp".data then f.timestamp
    else if fld = "ext".data then f.ext
    else []

/-- Scanner for `str.format`: outside a replacement field, characters are
copied; `\x7b` opens a field, `\x7d` closes it and substitutes the looked-up
value. Escape doubling (`\x7b\x7b`) is not modelled; no template used by the
program contains it. The second argument accumulates the reversed field name
while inside a field. -/
def pyFormatAux (lk : Seg → Seg) : Seg → Option Seg → Seg
  | [], _ => []
  | c :: cs, none =>
    if c = '\x7b' then pyFormatAux lk cs (some [])
    else c :: pyFormatAux lk cs none
  | c :: cs, some fld =>
    if c = '\x7d' then lk fld.reverse ++ pyFormatAux lk cs none
    else pyFormatAux lk cs (some (c :: fld))

/-- `tmpl.format(original_name=..., timestamp=..., ext=...)`. -/
def pyFormat (lk : Seg → Seg) (tmpl : Seg) : Seg :=
  pyFormatAux lk tmpl none

/-- The four conflict-resolution settings of handler.py:20-25, after merging. -/
structure ConflictSettings where
  deleted_files : Seg
  modified_files : Seg
  trash_dir : Seg
  duplicate_format : Seg
deriving DecidableEq

/-- One (possibly partial) `conflict_resolution` dictionary from the
configuration: each key may be absent. -/
structure ConflictOverrides where
  deleted_files : Option Seg := none
  modified_files : Option Seg := none
  trash_dir : Option Seg := none
  duplicate_format : Option Seg := none
deriving DecidableEq

/-- The hardcoded defaults of handler.py:20-25. -/
def defaultConflictSettings : ConflictSettings :=
  { deleted_files := "trash".data
    modified_files := "keep_both".data
    trash_dir := ".trash".data
    duplicate_format := "{original_name}_{timestamp}{ext}".data }

/-- `dict.update` on the conflict-settings dictionary: keys present in the
overlay win, absent keys keep the base value. -/
def dictUpdate (base : ConflictSettings) (o : ConflictOverrides) : ConflictSettings :=
  { deleted_files := o.deleted_files.getD base.deleted_files
    modified_files := o.modified_files.getD base.modified_files
    trash_dir := o.trash_dir.getD base.trash_dir
    duplicate_format := o.duplicate_format.getD base.duplicate_format }

/-- The three-layer merge of handler.py:20-29: hardcoded defaults, then the
global `conflict_resolution` dictionary, then the per-pair one. -/
def mkConflictSettings (globalO pairO : ConflictOverrides) : ConflictSettings :=
  dictUpdate (dictUpdate defaultConflictSettings globalO) pairO

/-- The configuration dictionary handed to `SyncHandler` (`self.config`):
the fields the handler reads, each possibly absent. `sync_pair_conflict`
models `config.get('sync_pair_config', {}).get('conflict_resolution', {})`
(handler.py:29), with a missing key collapsing to the all-absent record. -/
structure Config where
  skip_hidden : Option Bool := none
  cleanup_empty_dirs : Option Bool := none
  conflict_resolution : ConflictOverrides := {}
  sync_pair_conflict : ConflictOverrides := {}
deriving DecidableEq

/-- The `SyncHandler` constructor arguments (handler.py:11-17). -/
structure Handler where
  source_dir : FPath
  destination_dir : FPath
  exclude_patterns : List Seg
  config : Config
  dry_run : Bool

/-- `self.conflict_settings` as computed in `__init__` (handler.py:20-29). -/
def Handler.conflict_settings (h : Handler) : ConflictSettings :=
  mkConflictSettings h.config.conflict_resolution h.config.sync_pair_conflict

/-- A regular file: abstract content (stands for the byte string; the MD5
digest is modelled as this value) and its modification time. -/
structure File where
  content : Nat
  mtime : Nat
deriving DecidableEq

/-- A filesystem state: a finite map from paths to files, plus the list of
existing directories. -/
structure Fs where
  files : List (FPath × File)
  dirs : List FPath
deriving DecidableEq

/-- Look up the file at a path. -/
def lookupFile (fs : Fs) (p : FPath) : Option File :=
  (fs.files.find? (fun e => e.1 == p)).map Prod.snd

/-- Create or overwrite the file at a path. -/
def setFile (p : FPath) (f : File) (fs : Fs) : Fs :=
  { fs with files := (p, f) :: fs.files.filter (fun e => !(e.1 == p)) }

/-- `os.remove`-style removal of the file entry at a path. -/
def removeFile (p : FPath) (fs : Fs) : Fs :=
  { fs with files := fs.files.filter (fun e => !(e.1 == p)) }

/-- `os.rmdir`: drop one directory. -/
def rmdir (d : FPath) (fs : Fs) : Fs :=
  { fs with dirs := fs.dirs.filter (fun q => !(q == d)) }

/-- `os.makedirs(p, exist_ok=True)`: add `p` and every missing ancestor. -/
def makedirs (p : FPath) (fs : Fs) : Fs :=
  { fs with dirs := p.inits.filter (fun q => !(fs.dirs.contains q)) ++ fs.dirs }

/-- `os.path.exists`: true for files and for directories. -/
def pexists (fs : Fs) (p : FPath) : Bool :=
  (lookupFile fs p).isSome || fs.dirs.contains p

/-- Whether `q` lies strictly below `d`. -/
def isStrictUnder (d q : FPath) : Bool :=
  d.isPrefixOf q && !(q == d)

/-- `os.listdir(d) == []`: no file and no directory strictly below `d`. -/
def isEmptyDir (fs : Fs) (d : FPath) : Bool :=
  fs.files.all (fun e => !(isStrictUnder d e.1)) &&
    fs.dirs.all (fun q => !(isStrictUnder d q))

/-- `os.path.getmtime` with a directory's (never compared meaningfully by the
checked properties) modification time modelled as `0`. -/
def getmtimeD (fs : Fs) (p : FPath) : Nat :=
  ((lookupFile fs p).map File.mtime).getD 0

/-- `os.path.basename` of a non-empty path. -/
def basenameSeg (p : FPath) : Seg :=
  p.getLast?.getD []

/-- Which I/O operations raise `OSError`: `failCopy src dst` for
`shutil.copy2(src, dst)`, `failMove src dst` for `shutil.move(src, dst)`. -/
structure IOOracle where
  failCopy : FPath → FPath → Bool
  failMove : FPath → FPath → Bool

/-- The oracle under which every I/O operation succeeds. -/
def noFailOracle : IOOracle :=
  { failCopy := fun _ _ => false, failMove := fun _ _ => false }

/-- `shutil.copy2(src, dst)`: overwrite `dst` with `src`'s content and
modification time; raises (second component `true`) when the oracle says so
or when the source file does not exist. -/
def copy2Step (o : IOOracle) (src dst : FPath) (fs : Fs) : Fs × Bool :=
  if o.failCopy src dst then (fs, true)
  else
    match lookupFile fs src with
    | some f => (setFile dst f fs, false)
    | none => (fs, true)

/-- `shutil.move(src, dst)`: remove the entry at `src` and recreate it at
`dst`; raises when the oracle says so or when `src` has no file entry. -/
def moveStep (o : IOOracle) (src dst : FPath) (fs : Fs) : Fs × Bool :=
  if o.failMove src dst then (fs, true)
  else
    match lookupFile fs src with
    | some f => (setFile dst f (removeFile src fs), false)
    | none => (fs, true)

/-- `SyncHandler.get_duplicate_path` (handler.py:86-97): split the extension
off the destination path, take the stem as `original_name`, and instantiate
the configured duplicate template next to the original. -/
def get_duplicate_path (st : ConflictSettings) (now : Seg) (dest_path : FPath) : FPath :=
  let se := splitextName (basenameSeg dest_path)
  let new_name :=
    pyFormat (lookupField { original_name := se.1, timestamp := now, ext := se.2 })
      st.duplicate_format
  dest_path.dropLast ++ [new_name]

/-- `SyncHandler.get_trash_path` (handler.py:78-84): place
`<stem>_<timestamp><ext>` under `<destination_dir>/<trash_dir>`. The
`trash_dir` setting is modelled as a single path segment (its default
`".trash"` is one). -/
def get_trash_path (st : ConflictSettings) (destination_dir : FPath) (now : Seg)
    (filename : Seg) : FPath :=
  let se := splitextName filename
  destination_dir ++ [st.trash_dir, se.1 ++ "_".data ++ now ++ se.2]

/-- `SyncHandler.should_exclude` (handler.py:55-66): relativize the path
against `self.source_dir` (whatever tree it came from), exclude when hidden
segments are skipped and some part starts with `.`, otherwise try the glob
patterns on the relative path. -/
def should_exclude (h : Handler) (path : FPath) : Bool :=
  let relative_path := relpathSegs path h.source_dir
  if h.config.skip_hidden.getD true && (pathParts relative_path).any startsWithDot then
    true
  else
    h.exclude_patterns.any (fun pattern => fnmatchB (joinSegs relative_path) pattern)

/-- `SyncHandler.files_are_identical` (handler.py:68-75): digest comparison;
an `OSError` while hashing (a missing file) is caught and yields `False`. -/
def files_are_identical (a b : Option File) : Bool :=
  match a, b with
  | some fa, some fb => fa.content == fb.content
  | _, _ => false

/-- `SyncHandler.cleanup_empty_dirs` (handler.py:99-119): walk up from a
directory, removing it while it exists, is not the destination root, and is
empty. The `Nat` argument is recursion fuel; the caller passes the path's
depth plus one, which the parent-by-parent walk can never exhaust, so the
fuel is only a termination device. The filesystem root `[]` behaves as a
directory `os.rmdir` refuses to remove (the source swallows that `OSError`).
-/
def cleanup_empty_dirs (root : FPath) : Nat → FPath → Fs → Fs
  | 0, _, fs => fs
  | Nat.succ n, d, fs =>
    if d = [] then fs
    else if !(pexists fs d) then fs
    else if d = root then fs
    else if isEmptyDir fs d then cleanup_empty_dirs root n d.dropLast (rmdir d fs)
    else fs

/-- The body of `SyncHandler.sync_file` (handler.py:121-158) between the
`try` and the `finally`, with the destination path precomputed: returns the
resulting filesystem and whether an exception escaped. Note that in
handler.py the destination-absent branch (lines 155-158) performs
`os.makedirs` and `shutil.copy2` without consulting `self.dry_run`. -/
def syncBody (h : Handler) (o : IOOracle) (now : Seg) (src_path dest_path : FPath)
    (fs0 : Fs) : Fs × Bool :=
  if should_exclude h src_path then (fs0, false)
  else if pexists fs0 dest_path then
    if files_are_identical (lookupFile fs0 src_path) (lookupFile fs0 dest_path) then
      (fs0, false)
    else if h.conflict_settings.modified_files = "keep_both".data then
      let new_dest_path := get_duplicate_path h.conflict_settings now dest_path
      if h.dry_run then (fs0, false)
      else copy2Step o src_path new_dest_path (makedirs new_dest_path.dropLast fs0)
    else if h.conflict_settings.modified_files = "keep_newest".data then
      match lookupFile fs0 src_path with
      | none => (fs0, true)
      | some sf =>
        if sf.mtime > getmtimeD fs0 dest_path then
          if !h.dry_run then copy2Step o src_path dest_path fs0 else (fs0, false)
        else (fs0, false)
    else
      if !h.dry_run then copy2Step o src_path dest_path fs0 else (fs0, false)
  else
    copy2Step o src_path dest_path (makedirs dest_path.dropLast fs0)

/-- The engine-session state visible across calls: the filesystem and the
`self.is_syncing` reentrancy flag. -/
structure Session where
  fs : Fs
  is_syncing : Bool
deriving DecidableEq

/-- Result of one engine call: the session after the `finally` block ran,
and whether an exception escaped the call. -/
structure StepResult where
  sess : Session
  raised : Bool

/-- `SyncHandler.sync_file` (handler.py:121-160): set `is_syncing`, run the
body, and clear `is_syncing` in the `finally` block — the flag is reset even
when the body raises. -/
def sync_file (h : Handler) (o : IOOracle) (now : Seg) (src_path : FPath)
    (s0 : Session) : StepResult :=
  let rel_path := relpathSegs src_path h.source_dir
  let dest_path := h.destination_dir ++ rel_path
  let body := syncBody h o now src_path dest_path s0.fs
  { sess := { fs := body.1, is_syncing := false }, raised := body.2 }

/-- The body of `SyncHandler.handle_delete` (handler.py:162-189) between the
`try` and the `finally`, with the destination path precomputed. -/
def deleteBody (h : Handler) (o : IOOracle) (now : Seg) (dest_path : FPath)
    (fs0 : Fs) : Fs × Bool :=
  if !(pexists fs0 dest_path) then (fs0, false)
  else if h.dry_run then (fs0, false)
  else
    let step :=
      if h.conflict_settings.deleted_files = "trash".data then
        let trash_path :=
          get_trash_path h.conflict_settings h.destination_dir now (basenameSeg dest_path)
        moveStep o dest_path trash_path (makedirs trash_path.dropLast fs0)
      else if h.conflict_settings.deleted_files = "delete".data then
        (removeFile dest_path fs0, false)
      else (fs0, false)
    if step.2 then step
    else if h.config.cleanup_empty_dirs.getD true then
      (cleanup_empty_dirs h.destination_dir (dest_path.dropLast.length + 1)
        dest_path.dropLast step.1, false)
    else step

/-- `SyncHandler.handle_delete` (handler.py:162-191), with the same
`try/finally` shape as `sync_file`. -/
def handle_delete (h : Handler) (o : IOOracle) (now : Seg) (src_path : FPath)
    (s0 : Session) : StepResult :=
  let rel_path := relpathSegs src_path h.source_dir
  let dest_path := h.destination_dir ++ rel_path
  let body := deleteBody h o now dest_path s0.fs
  { sess := { fs := body.1, is_syncing := false }, raised := body.2 }

/-- `sync_worker` (main.py:51-57): call `sync_file`, returning `true`; any
exception is caught, logged, and turned into a `false` return value. -/
def sync_worker (h : Handler) (o : IOOracle) (now : Seg) (src_file : FPath)
    (s : Session) : Session × Bool :=
  let r := sync_file h o now src_file s
  (r.sess, !r.raised)

/-- The per-file portion of the initial sync pass (main.py:59-76): every
collected source file is handed to `sync_worker`, and one success flag is
collected per file. The worker pool is modelled sequentially; each worker
already contains its own exception barrier. -/
def initial_sync_pass (h : Handler) (o : IOOracle) (now : Seg) :
    List FPath → Session → Session × List Bool
  | [], s => (s, [])
  | f :: rest, s =>
    let r := sync_worker h o now f s
    let rec' := initial_sync_pass h o now rest r.1
    (rec'.1, r.2 :: rec'.2)

/-- Whether `os.walk(source_dir)` with the hidden-directory pruning of
main.py:39-41 (`dirs[:] = [d for d in dirs if not d.startswith('.')]`,
applied when `config.get('skip_hidden', True)`) ever lists the file `p`:
`p` must lie under the source root, and when pruning is on no intermediate
directory segment may start with `.` (a hidden basename is still listed —
pruning applies to directories only). -/
def walkVisits (h : Handler) (p : FPath) : Bool :=
  h.source_dir.isPrefixOf p &&
    (if h.config.skip_hidden.getD true then
      ((p.drop h.source_dir.length).dropLast).all (fun seg => !(startsWithDot seg))
    else true)

/-- The exclusion test the destination scan of `perform_initial_sync` applies
to a destination file (main.py:84): it reuses `handler.should_exclude`
unchanged. -/
def dest_scan_excludes (h : Handler) (dest_file : FPath) : Bool :=
  should_exclude h dest_file

/-- Modelled from the spec: the exclusion test the specification describes
for the destination scan — the same checks as `should_exclude`, but with the
path relativized against the destination root ("using each tree's own root
for relativization"). Stated only to compare against `dest_scan_excludes`. -/
def should_exclude_dest_spec (h : Handler) (path : FPath) : Bool :=
  let relative_path := relpathSegs path h.destination_dir
  if h.config.skip_hidden.getD true && (pathParts relative_path).any startsWithDot then
    true
  else
    h.exclude_patterns.any (fun pattern => fnmatchB (joinSegs relative_path) pattern)

/-! Helper lemmas about the filesystem primitives and path arithmetic. -/

theorem find_beq_filter_ne (l : List (FPath × File)) (p q : FPath) (hqp : q ≠ p) :
    (l.filter (fun e => !(e.1 == p))).find? (fun e => e.1 == q) =
      l.find? (fun e => e.1 == q) := by
  induction l with
  | nil => rfl
  | cons e rest ih =>
    by_cases hep : e.1 = p
    · rw [List.filter_cons_of_neg (by simp [hep]),
        List.find?_cons_of_neg _ (by simp [hep]; exact fun h => hqp h.symm)]
      · exact ih
    · rw [List.filter_cons_of_pos (by simp [hep])]
      by_cases heq : e.1 = q
      · rw [List.find?_cons_of_pos _ (by simp [heq]),
          List.find?_cons_of_pos _ (by simp [heq])]
      · rw [List.find?_cons_of_neg _ (by simp [heq]),
          List.find?_cons_of_neg _ (by simp [heq])]
        exact ih

theorem lookupFile_setFile (p : FPath) (f : File) (fs : Fs) (q : FPath) :
    lookupFile (setFile p f fs) q = if q = p then some f else lookupFile fs q := by
  unfold lookupFile setFile
  by_cases hqp : q = p
  · subst hqp
    rw [if_pos rfl]
    simp only []
    rw [List.find?_cons_of_pos _ (by simp)]
    rfl
  · rw [if_neg hqp]
    simp only []
    rw [List.find?_cons_of_neg _ (by simp [Ne.symm hqp]), find_beq_filter_ne _ _ _ hqp]

theorem lookupFile_makedirs (d : FPath) (fs : Fs) (q : FPath) :
    lookupFile (makedirs d fs) q = lookupFile fs q := rfl

theorem lookupFile_rmdir (d : FPath) (fs : Fs) (q : FPath) :
    lookupFile (rmdir d fs) q = lookupFile fs q := rfl

theorem lookupFile_removeFile (p : FPath) (fs : Fs) (q : FPath) :
    lookupFile (removeFile p fs) q = if q = p then none else lookupFile fs q := by
  unfold lookupFile removeFile
  by_cases hqp : q = p
  · subst hqp
    rw [if_pos rfl]
    simp only []
    have : (fs.files.filter (fun e => !(e.1 == q))).find? (fun e => e.1 == q) = none := by
      rw [List.find?_eq_none]
      intro e he
      have := (List.mem_filter.mp he).2
      simpa using this
    rw [this]
    rfl
  · rw [if_neg hqp]
    simp only []
    rw [find_beq_filter_ne _ _ _ hqp]

theorem commonPrefixLen_append (root rel : FPath) :
    commonPrefixLen (root ++ rel) root = root.length := by
  induction root with
  | nil => cases rel <;> rfl
  | cons a as ih => simp [commonPrefixLen, ih]

theorem relpathSegs_append (root rel : FPath) (hrel : rel ≠ []) :
    relpathSegs (root ++ rel) root = rel := by
  unfold relpathSegs
  rw [commonPrefixLen_append]
  simp [List.drop_left, hrel]

theorem commonPrefixLen_le (p q : FPath) : commonPrefixLen p q ≤ q.length := by
  induction p generalizing q with
  | nil => cases q <;> simp [commonPrefixLen]
  | cons a as ih =>
    cases q with
    | nil => simp [commonPrefixLen]
    | cons b bs =>
      simp only [commonPrefixLen, List.length_cons]
      split
      · exact Nat.succ_le_succ (ih bs)
      · exact Nat.zero_le _

theorem isPrefixOf_of_commonPrefixLen (p q : FPath)
    (h : commonPrefixLen p q = q.length) : q.isPrefixOf p = true := by
  induction q generalizing p with
  | nil => simp [List.isPrefixOf]
  | cons b bs ih =>
    cases p with
    | nil => simp [commonPrefixLen] at h
    | cons a as =>
      simp only [commonPrefixLen, List.length_cons] at h
      by_cases hab : a = b
      · subst hab
        rw [if_pos rfl] at h
        simp [List.isPrefixOf, ih as (by omega)]
      · rw [if_neg hab] at h
        omega

theorem splitextName_append (n : Seg) :
    (splitextName n).1 ++ (splitextName n).2 = n := by
  unfold splitextName
  cases h : lastDotIdx n with
  | none => simp
  | some i =>
    simp only []
    split
    · exact List.take_append_drop i n
    · simp

theorem dupName_ne (n now : Seg) :
    (splitextName n).1 ++ "_".data ++ now ++ (splitextName n).2 ≠ n := by
  intro h
  have hlen := congrArg List.length h
  have hsp := congrArg List.length (splitextName_append n)
  simp [List.length_append] at hlen hsp
  omega

theorem cleanup_files (root : FPath) (n : Nat) (d : FPath) (fs : Fs) :
    (cleanup_empty_dirs root n d fs).files = fs.files := by
  induction n generalizing d fs with
  | zero => rfl
  | succ m ih =>
    unfold cleanup_empty_dirs
    split
    · rfl
    · split
      · rfl
      · split
        · rfl
        · split
          · exact ih _ _
          · rfl

theorem lookupFile_mem (fs : Fs) (p : FPath) (f : File)
    (h : lookupFile fs p = some f) : (p, f) ∈ fs.files := by
  unfold lookupFile at h
  cases hf : fs.files.find? (fun e => e.1 == p) with
  | none => simp [hf] at h
  | some e =>
    simp only [hf, Option.map_some'] at h
    have hmem := List.mem_of_find?_eq_some hf
    have hpred := List.find?_some hf
    simp only [beq_iff_eq] at hpred
    cases e with
    | mk e1 e2 =>
      simp only at hpred h
      subst hpred
      cases h
      exact hmem

theorem cleanup_dirs_keep (root : FPath) (n : Nat) (d : FPath) (fs : Fs)
    (q p : FPath) (f : File)
    (hf : lookupFile fs p = some f) (hu : isStrictUnder q p = true)
    (hq : fs.dirs.contains q = true) :
    (cleanup_empty_dirs root n d fs).dirs.contains q = true := by
  induction n generalizing d fs with
  | zero => exact hq
  | succ m ih =>
    unfold cleanup_empty_dirs
    split
    · exact hq
    · split
      · exact hq
      · split
        · exact hq
        · split
          · rename_i hempty
            have hqd : q ≠ d := by
              intro hqd
              subst hqd
              unfold isEmptyDir at hempty
              simp only [Bool.and_eq_true, List.all_eq_true] at hempty
              have hmem := lookupFile_mem fs p f hf
              have := hempty.1 _ hmem
              simp [hu] at this
            refine ih _ (rmdir d fs) ?_ ?_
            · simpa [lookupFile_rmdir] using hf
            · unfold rmdir
              simp only [List.contains, List.elem_eq_mem, decide_eq_true_eq] at hq ⊢
              exact List.mem_filter.mpr ⟨hq, by simp [hqd]⟩
          · exact hq

theorem lookupFile_cleanup (root : FPath) (n : Nat) (d : FPath) (fs : Fs) (p : FPath) :
    lookupFile (cleanup_empty_dirs root n d fs) p = lookupFile fs p := by
  unfold lookupFile
  rw [cleanup_files]

theorem setFile_dirs (p : FPath) (f : File) (fs : Fs) : (setFile p f fs).dirs = fs.dirs := rfl

theorem removeFile_dirs (p : FPath) (fs : Fs) : (removeFile p fs).dirs = fs.dirs := rfl

theorem pyFormat_default (f : DupFields) :
    pyFormat (lookupField f) "{original_name}_{timestamp}{ext}".data =
      f.original_name ++ "_".data ++ f.timestamp ++ f.ext := by
  show pyFormatAux (lookupField f) "{original_name}_{timestamp}{ext}".data none = _
  simp +decide [pyFormatAux, lookupField]

theorem dropLast_basename (p : FPath) (hp : p ≠ []) :
    p.dropLast ++ [basenameSeg p] = p := by
  unfold basenameSeg
  rw [List.getLast?_eq_getLast p hp]
  simpa using List.dropLast_append_getLast hp

theorem basenameSeg_concat (xs : FPath) (a : Seg) : basenameSeg (xs ++ [a]) = a := by
  unfold basenameSeg
  simp

theorem dup_path_ne (p : FPath) (now : Seg) :
    p.dropLast ++
        [(splitextName (basenameSeg p)).1 ++ "_".data ++ now ++
          (splitextName (basenameSeg p)).2] ≠ p := by
  intro he
  have h2 := basenameSeg_concat p.dropLast
    ((splitextName (basenameSeg p)).1 ++ "_".data ++ now ++ (splitextName (basenameSeg p)).2)
  rw [he] at h2
  exact dupName_ne (basenameSeg p) now h2.symm

theorem get_duplicate_path_default (now : Seg) (p : FPath) :
    get_duplicate_path defaultConflictSettings now p =
      p.dropLast ++
        [(splitextName (basenameSeg p)).1 ++ "_".data ++ now ++
          (splitextName (basenameSeg p)).2] := by
  unfold get_duplicate_path
  simp only [defaultConflictSettings]
  rw [pyFormat_default]

theorem makedirs_contains (p q : FPath) (fs : Fs) (hq : q <+: p) :
    (makedirs p fs).dirs.contains q = true := by
  unfold makedirs
  simp only [List.contains, List.elem_eq_mem, decide_eq_true_eq, List.mem_append]
  by_cases hc : fs.dirs.contains q = true
  · right
    simpa [List.contains, List.elem_eq_mem] using hc
  · left
    refine List.mem_filter.mpr ⟨(List.mem_inits q p).mpr hq, ?_⟩
    simp only [List.contains, List.elem_eq_mem, decide_eq_true_eq] at hc
    simp [List.contains, List.elem_eq_mem, hc]

theorem isStrictUnder_snoc (q : FPath) (b : Seg) : isStrictUnder q (q ++ [b]) = true := by
  unfold isStrictUnder
  have h1 : q.isPrefixOf (q ++ [b]) = true :=
    List.isPrefixOf_iff_prefix.mpr ⟨[b], rfl⟩
  have h2 : q ++ [b] ≠ q := by simp
  simp [h1, h2]

theorem all_not_of_any (l : List Seg) (h : l.any startsWithDot = true) :
    l.all (fun seg => !(startsWithDot seg)) = false := by
  rcases List.any_eq_true.mp h with ⟨x, hmem, hx⟩
  rcases Bool.eq_false_or_eq_true (l.all fun seg => !(startsWithDot seg)) with ht | hf
  · have := List.all_eq_true.mp ht _ hmem
    simp [hx] at this
  · exact hf

theorem hidden_any_of_not_under (p src : FPath) (h : src.isPrefixOf p = false) :
    (pathParts (relpathSegs p src)).any startsWithDot = true := by
  have hk : commonPrefixLen p src < src.length := by
    by_contra hcon
    have heq : commonPrefixLen p src = src.length :=
      le_antisymm (commonPrefixLen_le p src) (Nat.le_of_not_lt hcon)
    rw [isPrefixOf_of_commonPrefixLen p src heq] at h
    cases h
  have hmem : "..".data ∈
      List.replicate (src.length - commonPrefixLen p src) "..".data ++
        p.drop (commonPrefixLen p src) :=
    List.mem_append_left _ (List.mem_replicate.mpr ⟨by omega, rfl⟩)
  unfold relpathSegs pathParts
  simp only []
  have hrnil : List.replicate (src.length - commonPrefixLen p src) "..".data ++
      p.drop (commonPrefixLen p src) ≠ [] := by
    intro hnil
    rw [hnil] at hmem
    cases hmem
  rw [if_neg hrnil]
  have hrdot : List.replicate (src.length - commonPrefixLen p src) "..".data ++
      p.drop (commonPrefixLen p src) ≠ [".".data] := by
    intro hdot
    rw [hdot] at hmem
    simp only [List.mem_singleton] at hmem
    exact absurd hmem (by decide)
  rw [if_neg hrdot]
  exact List.any_eq_true.mpr ⟨"..".data, hmem, by decide⟩

/-! Concrete fixtures used by witnesses and counterexamples. -/

/-- A handler for the pair `/src` → `/dst`, no exclude patterns, empty
configuration (so every setting takes its default), dry-run off. -/
def H0 : Handler :=
  { source_dir := ["src".data]
    destination_dir := ["dst".data]
    exclude_patterns := []
    config := {}
    dry_run := false }

/-- The same handler with dry-run enabled. -/
def H0dry : Handler := { H0 with dry_run := true }

/-- The same handler with `skip_hidden` explicitly set to `false`. -/
def HnoSkip : Handler := { H0 with config := { skip_hidden := some false } }

/-- The same handler with `modified_files` set to `keep_newest` per pair. -/
def Hnewest : Handler :=
  { H0 with config := { sync_pair_conflict := { modified_files := some "keep_newest".data } } }

/-- A source file. -/
def fA : File := { content := 1, mtime := 5 }

/-- A divergent destination file, older than `fA`. -/
def fB : File := { content := 2, mtime := 3 }

/-- Source `/src/a.txt` and divergent destination `/dst/a.txt` both present. -/
def FS0 : Fs :=
  { files := [(["src".data, "a.txt".data], fA), (["dst".data, "a.txt".data], fB)]
    dirs := [[], ["src".data], ["dst".data]] }

/-- Source `/src/a.txt` present, no destination counterpart. -/
def FSabs : Fs :=
  { files := [(["src".data, "a.txt".data], fA)]
    dirs := [[], ["src".data], ["dst".data]] }

/-- Destination `/dst/b.txt` present, its source already deleted. -/
def FSdel : Fs :=
  { files := [(["dst".data, "b.txt".data], fB)]
    dirs := [[], ["src".data], ["dst".data]] }

/-- An oracle under which every `shutil.copy2` raises `OSError`. -/
def failAllCopies : IOOracle :=
  { failCopy := fun _ _ => true, failMove := fun _ _ => false }

/-! Claim theorems. -/

/-- C1: the claim says that with dry-run enabled no call to `sync_file`
mutates the filesystem, in every branch including the one where the
destination counterpart does not yet exist. handler.py violates this: the
destination-absent branch (lines 155-158) runs `os.makedirs` and
`shutil.copy2` without checking `self.dry_run` (the parallel implementation
in sync5.py lines 162-168 does check it, and the CLI documents `--dry-run`
as "without actual file operations"). This theorem evaluates the code at the
failing input: dry-run on, `/src/a.txt` present, `/dst/a.txt` absent — and
after `sync_file` the destination file exists with the source's content. -/
theorem c1_dry_run_still_copies :
    H0dry.dry_run = true ∧
    lookupFile FSabs ["dst".data, "a.txt".data] = none ∧
    lookupFile (sync_file H0dry noFailOracle "20240101_000000".data
        ["src".data, "a.txt".data] { fs := FSabs, is_syncing := false }).sess.fs
      ["dst".data, "a.txt".data] = some fA :=
  ⟨rfl, rfl, rfl⟩

/-- C9: every call to `sync_file` and to `handle_delete` leaves the
session's `is_syncing` reentrancy flag `false` on exit — for every handler,
I/O oracle (including oracles that make the body raise), timestamp, path,
and starting session — because both bodies sit inside `try/finally` blocks
whose `finally` clears the flag (handler.py:159-160 and 190-191). -/
theorem c9_guard_always_reset (h : Handler) (o : IOOracle) (now : Seg) (p : FPath)
    (s : Session) :
    (sync_file h o now p s).sess.is_syncing = false ∧
    (handle_delete h o now p s).sess.is_syncing = false :=
  ⟨rfl, rfl⟩

/-- C6: the effective conflict policy is a field-wise last-writer-wins merge
of the hardcoded defaults, then the global `conflict_resolution` settings,
then the per-pair ones (handler.py:20-29); every field left unset by both
override layers falls back to the hardcoded default: deleted files `trash`,
modified files `keep_both`, trash subdirectory `.trash`, duplicate template
`\x7boriginal_name\x7d_\x7btimestamp\x7d\x7bext\x7d`. -/
theorem c6_policy_merge (h : Handler) :
    h.conflict_settings.deleted_files =
      (h.config.sync_pair_conflict.deleted_files.or
        h.config.conflict_resolution.deleted_files).getD "trash".data ∧
    h.conflict_settings.modified_files =
      (h.config.sync_pair_conflict.modified_files.or
        h.config.conflict_resolution.modified_files).getD "keep_both".data ∧
    h.conflict_settings.trash_dir =
      (h.config.sync_pair_conflict.trash_dir.or
        h.config.conflict_resolution.trash_dir).getD ".trash".data ∧
    h.conflict_settings.duplicate_format =
      (h.config.sync_pair_conflict.duplicate_format.or
        h.config.conflict_resolution.duplicate_format).getD
        "{original_name}_{timestamp}{ext}".data := by
  unfold Handler.conflict_settings mkConflictSettings dictUpdate defaultConflictSettings
  refine ⟨?_, ?_, ?_, ?_⟩ <;>
    · cases h.config.sync_pair_conflict.deleted_files <;>
      cases h.config.conflict_resolution.deleted_files <;>
      cases h.config.sync_pair_conflict.modified_files <;>
      cases h.config.conflict_resolution.modified_files <;>
      cases h.config.sync_pair_conflict.trash_dir <;>
      cases h.config.conflict_resolution.trash_dir <;>
      cases h.config.sync_pair_conflict.duplicate_format <;>
      cases h.config.conflict_resolution.duplicate_format <;>
      simp [Option.or, Option.getD]

/-- C5 counterexample: the claim says an I/O error raised while copying is
caught and logged inside the engine and does not propagate past the single
file operation. In handler.py `sync_file` has a `try/finally` but no
`except` (lines 121-160), so the `OSError` from `shutil.copy2` escapes
`sync_file` itself: at this concrete input the call reports an escaped
exception. -/
theorem c5_error_escapes_sync_file :
    (sync_file H0 failAllCopies "ts".data ["src".data, "a.txt".data]
      { fs := FSabs, is_syncing := false }).raised = true :=
  rfl

/-- C5 (amended): the copy error is caught and logged not inside the engine
but by the per-file worker of the tree pass — `sync_worker` (main.py:51-57)
returns `false` exactly when `sync_file` raised, never re-raising — and the
initial sync pass therefore still processes every file, producing one result
per collected file for every oracle. -/
theorem c5_worker_isolates_failures (h : Handler) (o : IOOracle) (now : Seg)
    (src : FPath) (s : Session) (files : List FPath) :
    (sync_worker h o now src s).2 = !(sync_file h o now src s).raised ∧
    ((initial_sync_pass h o now files s).2).length = files.length := by
  refine ⟨rfl, ?_⟩
  induction files generalizing s with
  | nil => rfl
  | cons f rest ih => simp [initial_sync_pass, ih]

/-- C4 counterexample: the claim says the exclusion check relativizes each
scanned path against its own tree's root, so that destination files are
relativized against `destination_root`. At the concrete destination file
`/dst/a.txt` of the pair `/src` → `/dst` (no exclude patterns, default
`skip_hidden`), the check the destination scan actually applies excludes the
file (its path relative to the SOURCE root starts with `..`), while the
destination-root-relative check described by the spec does not. -/
theorem c4_relativizes_against_source_root :
    dest_scan_excludes H0 ["dst".data, "a.txt".data] = true ∧
    should_exclude_dest_spec H0 ["dst".data, "a.txt".data] = false ∧
    H0.exclude_patterns = [] :=
  ⟨rfl, rfl, rfl⟩

/-- C4 (amended): the destination scan of `perform_initial_sync`
(main.py:84) reuses `should_exclude` unchanged, which always relativizes
against the pair's SOURCE root (handler.py:59); consequently, when
`skip_hidden` is unset (default on), every destination file not lying under
the source root is treated as excluded during orphan detection, because its
source-relative path begins with `..` segments. -/
theorem c4_dest_scan_uses_source_root (h : Handler) (p : FPath)
    (hskip : h.config.skip_hidden = none)
    (hnp : h.source_dir.isPrefixOf p = false) :
    dest_scan_excludes h p = should_exclude h p ∧ dest_scan_excludes h p = true := by
  refine ⟨rfl, ?_⟩
  unfold dest_scan_excludes should_exclude
  simp [hskip, hidden_any_of_not_under p h.source_dir hnp]

/-- C4 witness: the amended statement applied to the concrete pair
`/src` → `/dst` and destination file `/dst/a.txt`. -/
theorem c4_dest_scan_uses_source_root_witness :
    dest_scan_excludes H0 ["dst".data, "sub".data, "c.txt".data] =
      should_exclude H0 ["dst".data, "sub".data, "c.txt".data] ∧
    dest_scan_excludes H0 ["dst".data, "sub".data, "c.txt".data] = true :=
  c4_dest_scan_uses_source_root H0 ["dst".data, "sub".data, "c.txt".data] rfl (by decide)

/-- C10: when `skip_hidden` is absent from the configuration it defaults to
enabled: any path whose source-relative path has a segment starting with `.`
is excluded by `should_exclude` (handler.py:62, `config.get('skip_hidden',
True)`), and the initial-sync walk prunes hidden directories
(main.py:40-41); when the configuration explicitly sets `skip_hidden` to
`false`, the hidden-segment test is skipped and only the glob patterns
decide. -/
theorem c10_skip_hidden_defaults_on (h : Handler) (p : FPath) :
    (h.config.skip_hidden = none →
      ((pathParts (relpathSegs p h.source_dir)).any startsWithDot = true →
        should_exclude h p = true) ∧
      (((p.drop h.source_dir.length).dropLast).any startsWithDot = true →
        walkVisits h p = false)) ∧
    (h.config.skip_hidden = some false →
      should_exclude h p =
        h.exclude_patterns.any
          (fun pattern => fnmatchB (joinSegs (relpathSegs p h.source_dir)) pattern)) := by
  refine ⟨fun hs => ⟨fun hany => ?_, fun hany => ?_⟩, fun hs => ?_⟩
  · simp [should_exclude, hs, hany]
  · simp [walkVisits, hs, all_not_of_any _ hany]
  · simp [should_exclude, hs]

/-- C10 witness: the theorem applied to `/src/.hid/f.txt` under `H0` (whose
configuration has no `skip_hidden` key) and under `HnoSkip` (which sets it
to `false`). -/
theorem c10_skip_hidden_defaults_on_witness :
    (should_exclude H0 ["src".data, ".hid".data, "f.txt".data] = true ∧
      walkVisits H0 ["src".data, ".hid".data, "f.txt".data] = false) ∧
    should_exclude HnoSkip ["src".data, ".hid".data, "f.txt".data] =
      HnoSkip.exclude_patterns.any
        (fun pattern => fnmatchB
          (joinSegs (relpathSegs ["src".data, ".hid".data, "f.txt".data]
            HnoSkip.source_dir)) pattern) :=
  ⟨⟨((c10_skip_hidden_defaults_on H0 ["src".data, ".hid".data, "f.txt".data]).1 rfl).1
      (by decide),
    ((c10_skip_hidden_defaults_on H0 ["src".data, ".hid".data, "f.txt".data]).1 rfl).2
      (by decide)⟩,
   (c10_skip_hidden_defaults_on HnoSkip ["src".data, ".hid".data, "f.txt".data]).2 rfl⟩

theorem sync_file_fs (h : Handler) (o : IOOracle) (now : Seg) (src : FPath) (s : Session) :
    (sync_file h o now src s).sess.fs =
      (syncBody h o now src (h.destination_dir ++ relpathSegs src h.source_dir) s.fs).1 :=
  rfl

theorem handle_delete_fs (h : Handler) (o : IOOracle) (now : Seg) (src : FPath)
    (s : Session) :
    (handle_delete h o now src s).sess.fs =
      (deleteBody h o now (h.destination_dir ++ relpathSegs src h.source_dir) s.fs).1 :=
  rfl

/-- C7: under `keep_newest` with divergent digests and dry-run off,
`sync_file` copy-overwrites the destination with the source exactly when the
source modification time is strictly greater than the destination's
(handler.py:144-148); otherwise the whole filesystem is left unchanged. -/
theorem c7_keep_newest_strictly_newer (h : Handler) (now : Seg) (rel : FPath)
    (s0 : Session) (sf df : File)
    (hdry : h.dry_run = false)
    (hpol : h.conflict_settings.modified_files = "keep_newest".data)
    (hrel : rel ≠ [])
    (hex : should_exclude h (h.source_dir ++ rel) = false)
    (hs : lookupFile s0.fs (h.source_dir ++ rel) = some sf)
    (hd : lookupFile s0.fs (h.destination_dir ++ rel) = some df)
    (hdiv : sf.content ≠ df.content) :
    (sf.mtime > df.mtime →
      lookupFile (sync_file h noFailOracle now (h.source_dir ++ rel) s0).sess.fs
        (h.destination_dir ++ rel) = some sf) ∧
    (¬ sf.mtime > df.mtime →
      (sync_file h noFailOracle now (h.source_dir ++ rel) s0).sess.fs = s0.fs) := by
  have hfs : (sync_file h noFailOracle now (h.source_dir ++ rel) s0).sess.fs =
      (syncBody h noFailOracle now (h.source_dir ++ rel) (h.destination_dir ++ rel)
        s0.fs).1 := by
    rw [sync_file_fs, relpathSegs_append _ _ hrel]
  have hpe : pexists s0.fs (h.destination_dir ++ rel) = true := by
    simp [pexists, hd]
  have hid : files_are_identical (lookupFile s0.fs (h.source_dir ++ rel))
      (lookupFile s0.fs (h.destination_dir ++ rel)) = false := by
    simp [files_are_identical, hs, hd, hdiv]
  have hgm : getmtimeD s0.fs (h.destination_dir ++ rel) = df.mtime := by
    simp [getmtimeD, hd]
  have hbody : syncBody h noFailOracle now (h.source_dir ++ rel)
      (h.destination_dir ++ rel) s0.fs =
      if sf.mtime > df.mtime then
        (setFile (h.destination_dir ++ rel) sf s0.fs, false)
      else (s0.fs, false) := by
    unfold syncBody
    rw [hex, hpe, hid, hpol, hs, hgm, hdry]
    simp +decide [copy2Step, noFailOracle, hs]
  constructor
  · intro hmt
    rw [hfs, hbody, if_pos hmt]
    simp [lookupFile_setFile]
  · intro hmt
    rw [hfs, hbody, if_neg hmt]

/-- C7 witness: the theorem applied to the pair `/src` → `/dst` with
per-pair policy `keep_newest`, source `/src/a.txt` (mtime 5) and divergent
destination `/dst/a.txt` (mtime 3): the source is strictly newer, so the
destination is overwritten with the source file. -/
theorem c7_keep_newest_strictly_newer_witness :
    Hnewest.dry_run = false ∧
    Hnewest.conflict_settings.modified_files = "keep_newest".data ∧
    fA.content ≠ fB.content ∧
    ((fA.mtime > fB.mtime →
        lookupFile (sync_file Hnewest noFailOracle "ts".data
            (Hnewest.source_dir ++ ["a.txt".data])
            { fs := FS0, is_syncing := false }).sess.fs
          (Hnewest.destination_dir ++ ["a.txt".data]) = some fA) ∧
      (¬ fA.mtime > fB.mtime →
        (sync_file Hnewest noFailOracle "ts".data
          (Hnewest.source_dir ++ ["a.txt".data])
          { fs := FS0, is_syncing := false }).sess.fs = FS0)) :=
  ⟨rfl, by decide, by decide,
    c7_keep_newest_strictly_newer Hnewest "ts".data ["a.txt".data]
      { fs := FS0, is_syncing := false } fA fB rfl (by decide) (by decide) (by decide)
      rfl rfl (by decide)⟩

/-- C2: under `keep_both` (the default policy) with divergent digests and
dry-run off, `sync_file` leaves the original destination file untouched and
copies the source to a sibling path whose name is the duplicate template
instantiated with the original stem, the timestamp, and the original
extension (handler.py:135-143 and 86-97); the duplicate path is always
distinct from the original destination path. -/
theorem c2_keep_both_preserves_original (h : Handler) (now : Seg) (rel : FPath)
    (s0 : Session) (sf df : File)
    (hset : h.conflict_settings = defaultConflictSettings)
    (hdry : h.dry_run = false)
    (hrel : rel ≠ [])
    (hex : should_exclude h (h.source_dir ++ rel) = false)
    (hs : lookupFile s0.fs (h.source_dir ++ rel) = some sf)
    (hd : lookupFile s0.fs (h.destination_dir ++ rel) = some df)
    (hdiv : sf.content ≠ df.content) :
    lookupFile (sync_file h noFailOracle now (h.source_dir ++ rel) s0).sess.fs
        (h.destination_dir ++ rel) = some df ∧
    lookupFile (sync_file h noFailOracle now (h.source_dir ++ rel) s0).sess.fs
        ((h.destination_dir ++ rel).dropLast ++
          [(splitextName (basenameSeg (h.destination_dir ++ rel))).1 ++ "_".data ++ now ++
            (splitextName (basenameSeg (h.destination_dir ++ rel))).2]) = some sf ∧
    (h.destination_dir ++ rel).dropLast ++
        [(splitextName (basenameSeg (h.destination_dir ++ rel))).1 ++ "_".data ++ now ++
          (splitextName (basenameSeg (h.destination_dir ++ rel))).2] ≠
      h.destination_dir ++ rel := by
  have hfs : (sync_file h noFailOracle now (h.source_dir ++ rel) s0).sess.fs =
      (syncBody h noFailOracle now (h.source_dir ++ rel) (h.destination_dir ++ rel)
        s0.fs).1 := by
    rw [sync_file_fs, relpathSegs_append _ _ hrel]
  have hpe : pexists s0.fs (h.destination_dir ++ rel) = true := by
    simp [pexists, hd]
  have hid : files_are_identical (lookupFile s0.fs (h.source_dir ++ rel))
      (lookupFile s0.fs (h.destination_dir ++ rel)) = false := by
    simp [files_are_identical, hs, hd, hdiv]
  have hkb : h.conflict_settings.modified_files = "keep_both".data := by
    rw [hset]
    rfl
  have hdup : get_duplicate_path h.conflict_settings now (h.destination_dir ++ rel) =
      (h.destination_dir ++ rel).dropLast ++
        [(splitextName (basenameSeg (h.destination_dir ++ rel))).1 ++ "_".data ++ now ++
          (splitextName (basenameSeg (h.destination_dir ++ rel))).2] := by
    rw [hset]
    exact get_duplicate_path_default now (h.destination_dir ++ rel)
  have hne := dup_path_ne (h.destination_dir ++ rel) now
  have hbody : syncBody h noFailOracle now (h.source_dir ++ rel)
      (h.destination_dir ++ rel) s0.fs =
      (setFile
        ((h.destination_dir ++ rel).dropLast ++
          [(splitextName (basenameSeg (h.destination_dir ++ rel))).1 ++ "_".data ++ now ++
            (splitextName (basenameSeg (h.destination_dir ++ rel))).2])
        sf
        (makedirs
          ((h.destination_dir ++ rel).dropLast ++
            [(splitextName (basenameSeg (h.destination_dir ++ rel))).1 ++ "_".data ++ now ++
              (splitextName (basenameSeg (h.destination_dir ++ rel))).2]).dropLast
          s0.fs), false) := by
    unfold syncBody
    rw [hex, hpe, hid, hkb, hdry, hdup]
    simp [copy2Step, noFailOracle, lookupFile_makedirs, hs]
  refine ⟨?_, ?_, hne⟩
  · rw [hfs, hbody]
    simp only []
    rw [lookupFile_setFile, if_neg (Ne.symm hne), lookupFile_makedirs]
    exact hd
  · rw [hfs, hbody]
    simp only []
    rw [lookupFile_setFile, if_pos rfl]

/-- C2 witness: the theorem applied to `/src/a.txt` (content 1) diverging
from `/dst/a.txt` (content 2) under the default settings: afterwards
`/dst/a.txt` still holds content 2 and `/dst/a_ts1.txt` holds content 1. -/
theorem c2_keep_both_preserves_original_witness :
    H0.conflict_settings = defaultConflictSettings ∧
    fA.content ≠ fB.content ∧
    (lookupFile (sync_file H0 noFailOracle "ts1".data
        (H0.source_dir ++ ["a.txt".data]) { fs := FS0, is_syncing := false }).sess.fs
      (H0.destination_dir ++ ["a.txt".data]) = some fB ∧
    lookupFile (sync_file H0 noFailOracle "ts1".data
        (H0.source_dir ++ ["a.txt".data]) { fs := FS0, is_syncing := false }).sess.fs
      ((H0.destination_dir ++ ["a.txt".data]).dropLast ++
        [(splitextName (basenameSeg (H0.destination_dir ++ ["a.txt".data]))).1 ++
          "_".data ++ "ts1".data ++
          (splitextName (basenameSeg (H0.destination_dir ++ ["a.txt".data]))).2]) =
      some fA ∧
    (H0.destination_dir ++ ["a.txt".data]).dropLast ++
        [(splitextName (basenameSeg (H0.destination_dir ++ ["a.txt".data]))).1 ++
          "_".data ++ "ts1".data ++
          (splitextName (basenameSeg (H0.destination_dir ++ ["a.txt".data]))).2] ≠
      H0.destination_dir ++ ["a.txt".data]) :=
  ⟨by decide, by decide,
    c2_keep_both_preserves_original H0 "ts1".data ["a.txt".data]
      { fs := FS0, is_syncing := false } fA fB (by decide) rfl (by decide) (by decide)
      rfl rfl (by decide)⟩

/-- C8: under `on_deleted = trash` with dry-run off, when the destination
counterpart exists, `handle_delete` moves it to
`<destination_root>/<trash_subdir>/<stem>_<timestamp><ext>` — creating the
trash directory — after which no file remains at the original destination
path (handler.py:175-180 and 78-84). -/
theorem c8_trash_moves_destination (h : Handler) (now : Seg) (rel : FPath)
    (s0 : Session) (df : File)
    (hdry : h.dry_run = false)
    (hpol : h.conflict_settings.deleted_files = "trash".data)
    (hrel : rel ≠ [])
    (hd : lookupFile s0.fs (h.destination_dir ++ rel) = some df) :
    lookupFile (handle_delete h noFailOracle now (h.source_dir ++ rel) s0).sess.fs
        (h.destination_dir ++ [h.conflict_settings.trash_dir,
          (splitextName (basenameSeg (h.destination_dir ++ rel))).1 ++ "_".data ++ now ++
            (splitextName (basenameSeg (h.destination_dir ++ rel))).2]) = some df ∧
    lookupFile (handle_delete h noFailOracle now (h.source_dir ++ rel) s0).sess.fs
        (h.destination_dir ++ rel) = none ∧
    (handle_delete h noFailOracle now (h.source_dir ++ rel) s0).sess.fs.dirs.contains
        (h.destination_dir ++ [h.conflict_settings.trash_dir]) = true := by
  have hfs : (handle_delete h noFailOracle now (h.source_dir ++ rel) s0).sess.fs =
      (deleteBody h noFailOracle now (h.destination_dir ++ rel) s0.fs).1 := by
    rw [handle_delete_fs, relpathSegs_append _ _ hrel]
  have hpe : pexists s0.fs (h.destination_dir ++ rel) = true := by
    simp [pexists, hd]
  have htp : h.destination_dir ++ [h.conflict_settings.trash_dir,
      (splitextName (basenameSeg (h.destination_dir ++ rel))).1 ++ "_".data ++ now ++
        (splitextName (basenameSeg (h.destination_dir ++ rel))).2] =
      (h.destination_dir ++ [h.conflict_settings.trash_dir]) ++
        [(splitextName (basenameSeg (h.destination_dir ++ rel))).1 ++ "_".data ++ now ++
          (splitextName (basenameSeg (h.destination_dir ++ rel))).2] := by
    simp
  have hbn : basenameSeg (h.destination_dir ++ [h.conflict_settings.trash_dir,
      (splitextName (basenameSeg (h.destination_dir ++ rel))).1 ++ "_".data ++ now ++
        (splitextName (basenameSeg (h.destination_dir ++ rel))).2]) =
      (splitextName (basenameSeg (h.destination_dir ++ rel))).1 ++ "_".data ++ now ++
        (splitextName (basenameSeg (h.destination_dir ++ rel))).2 := by
    rw [htp]
    exact basenameSeg_concat _ _
  have hdne : h.destination_dir ++ rel ≠
      h.destination_dir ++ [h.conflict_settings.trash_dir,
        (splitextName (basenameSeg (h.destination_dir ++ rel))).1 ++ "_".data ++ now ++
          (splitextName (basenameSeg (h.destination_dir ++ rel))).2] := by
    intro heq
    rw [← heq] at hbn
    exact dupName_ne (basenameSeg (h.destination_dir ++ rel)) now hbn.symm
  have htrash : get_trash_path h.conflict_settings h.destination_dir now
      (basenameSeg (h.destination_dir ++ rel)) =
      h.destination_dir ++ [h.conflict_settings.trash_dir,
        (splitextName (basenameSeg (h.destination_dir ++ rel))).1 ++ "_".data ++ now ++
          (splitextName (basenameSeg (h.destination_dir ++ rel))).2] := rfl
  have hdl : (h.destination_dir ++ [h.conflict_settings.trash_dir,
      (splitextName (basenameSeg (h.destination_dir ++ rel))).1 ++ "_".data ++ now ++
        (splitextName (basenameSeg (h.destination_dir ++ rel))).2]).dropLast =
      h.destination_dir ++ [h.conflict_settings.trash_dir] := by
    rw [htp]
    exact List.dropLast_concat
  have hbody : deleteBody h noFailOracle now (h.destination_dir ++ rel) s0.fs =
      (if h.config.cleanup_empty_dirs.getD true then
        cleanup_empty_dirs h.destination_dir ((h.destination_dir ++ rel).dropLast.length + 1)
          (h.destination_dir ++ rel).dropLast
          (setFile
            (h.destination_dir ++ [h.conflict_settings.trash_dir,
              (splitextName (basenameSeg (h.destination_dir ++ rel))).1 ++ "_".data ++ now ++
                (splitextName (basenameSeg (h.destination_dir ++ rel))).2])
            df
            (removeFile (h.destination_dir ++ rel)
              (makedirs (h.destination_dir ++ [h.conflict_settings.trash_dir]) s0.fs)))
       else
        setFile
          (h.destination_dir ++ [h.conflict_settings.trash_dir,
            (splitextName (basenameSeg (h.destination_dir ++ rel))).1 ++ "_".data ++ now ++
              (splitextName (basenameSeg (h.destination_dir ++ rel))).2])
          df
          (removeFile (h.destination_dir ++ rel)
            (makedirs (h.destination_dir ++ [h.conflict_settings.trash_dir]) s0.fs)), false) := by
    unfold deleteBody
    rw [hpe, hdry, hpol, htrash]
    simp [moveStep, noFailOracle, lookupFile_makedirs, hd, hdl]
    split <;> rfl
  have hfs2t : lookupFile
      (setFile
        (h.destination_dir ++ [h.conflict_settings.trash_dir,
          (splitextName (basenameSeg (h.destination_dir ++ rel))).1 ++ "_".data ++ now ++
            (splitextName (basenameSeg (h.destination_dir ++ rel))).2])
        df
        (removeFile (h.destination_dir ++ rel)
          (makedirs (h.destination_dir ++ [h.conflict_settings.trash_dir]) s0.fs)))
      (h.destination_dir ++ [h.conflict_settings.trash_dir,
        (splitextName (basenameSeg (h.destination_dir ++ rel))).1 ++ "_".data ++ now ++
          (splitextName (basenameSeg (h.destination_dir ++ rel))).2]) = some df := by
    rw [lookupFile_setFile, if_pos rfl]
  have hfs2d : lookupFile
      (setFile
        (h.destination_dir ++ [h.conflict_settings.trash_dir,
          (splitextName (basenameSeg (h.destination_dir ++ rel))).1 ++ "_".data ++ now ++
            (splitextName (basenameSeg (h.destination_dir ++ rel))).2])
        df
        (removeFile (h.destination_dir ++ rel)
          (makedirs (h.destination_dir ++ [h.conflict_settings.trash_dir]) s0.fs)))
      (h.destination_dir ++ rel) = none := by
    rw [lookupFile_setFile, if_neg hdne, lookupFile_removeFile, if_pos rfl]
  have hfs2dir : (setFile
      (h.destination_dir ++ [h.conflict_settings.trash_dir,
        (splitextName (basenameSeg (h.destination_dir ++ rel))).1 ++ "_".data ++ now ++
          (splitextName (basenameSeg (h.destination_dir ++ rel))).2])
      df
      (removeFile (h.destination_dir ++ rel)
        (makedirs (h.destination_dir ++ [h.conflict_settings.trash_dir])
          s0.fs))).dirs.contains
      (h.destination_dir ++ [h.conflict_settings.trash_dir]) = true := by
    rw [setFile_dirs, removeFile_dirs]
    exact makedirs_contains _ _ s0.fs (List.prefix_refl _)
  have hunder : isStrictUnder (h.destination_dir ++ [h.conflict_settings.trash_dir])
      (h.destination_dir ++ [h.conflict_settings.trash_dir,
        (splitextName (basenameSeg (h.destination_dir ++ rel))).1 ++ "_".data ++ now ++
          (splitextName (basenameSeg (h.destination_dir ++ rel))).2]) = true := by
    rw [htp]
    exact isStrictUnder_snoc _ _
  refine ⟨?_, ?_, ?_⟩
  · rw [hfs, hbody]
    simp only []
    split
    · rw [lookupFile_cleanup]
      exact hfs2t
    · exact hfs2t
  · rw [hfs, hbody]
    simp only []
    split
    · rw [lookupFile_cleanup]
      exact hfs2d
    · exact hfs2d
  · rw [hfs, hbody]
    simp only []
    split
    · exact cleanup_dirs_keep _ _ _ _ _ _ df hfs2t hunder hfs2dir
    · exact hfs2dir

/-- C8 witness: the theorem applied to the pair `/src` → `/dst` with default
settings: deleting source `/src/b.txt` moves `/dst/b.txt` to
`/dst/.trash/b_ts1.txt`, creating `/dst/.trash`, and `/dst/b.txt` is gone. -/
theorem c8_trash_moves_destination_witness :
    H0.dry_run = false ∧
    H0.conflict_settings.deleted_files = "trash".data ∧
    (lookupFile (handle_delete H0 noFailOracle "ts1".data
        (H0.source_dir ++ ["b.txt".data]) { fs := FSdel, is_syncing := false }).sess.fs
      (H0.destination_dir ++ [H0.conflict_settings.trash_dir,
        (splitextName (basenameSeg (H0.destination_dir ++ ["b.txt".data]))).1 ++
          "_".data ++ "ts1".data ++
          (splitextName (basenameSeg (H0.destination_dir ++ ["b.txt".data]))).2]) =
      some fB ∧
    lookupFile (handle_delete H0 noFailOracle "ts1".data
        (H0.source_dir ++ ["b.txt".data]) { fs := FSdel, is_syncing := false }).sess.fs
      (H0.destination_dir ++ ["b.txt".data]) = none ∧
    (handle_delete H0 noFailOracle "ts1".data
        (H0.source_dir ++ ["b.txt".data])
        { fs := FSdel, is_syncing := false }).sess.fs.dirs.contains
      (H0.destination_dir ++ [H0.conflict_settings.trash_dir]) = true) :=
  ⟨rfl, by decide,
    c8_trash_moves_destination H0 "ts1".data ["b.txt".data]
      { fs := FSdel, is_syncing := false } fB rfl (by decide) (by decide) rfl⟩

/-- The handler `H0` with per-pair policy `overwrite`. -/
def Hover : Handler :=
  { H0 with config := { sync_pair_conflict := { modified_files := some "overwrite".data } } }

/-- C3 counterexample: the claim says `sync_file` is idempotent for every
`on_modified` policy. Under the default `keep_both` policy it is not: after
the first call duplicates a divergent `/src/a.txt` next to `/dst/a.txt`, the
original destination is still divergent from the source, so a second call
(at the next timestamp, with no intervening change to the source file or to
the destination tree by anyone else) writes again, creating a second
duplicate `/dst/a_ts2.txt` that did not exist after the first call. -/
theorem c3_keep_both_second_call_writes :
    H0.conflict_settings.modified_files = "keep_both".data ∧
    lookupFile (sync_file H0 noFailOracle "ts1".data (H0.source_dir ++ ["a.txt".data])
        { fs := FS0, is_syncing := false }).sess.fs ["dst".data, "a_ts2.txt".data] =
      none ∧
    lookupFile (sync_file H0 noFailOracle "ts2".data (H0.source_dir ++ ["a.txt".data])
        (sync_file H0 noFailOracle "ts1".data (H0.source_dir ++ ["a.txt".data])
          { fs := FS0, is_syncing := false }).sess).sess.fs
      ["dst".data, "a_ts2.txt".data] = some fA ∧
    (sync_file H0 noFailOracle "ts2".data (H0.source_dir ++ ["a.txt".data])
        (sync_file H0 noFailOracle "ts1".data (H0.source_dir ++ ["a.txt".data])
          { fs := FS0, is_syncing := false }).sess).sess.fs ≠
      (sync_file H0 noFailOracle "ts1".data (H0.source_dir ++ ["a.txt".data])
        { fs := FS0, is_syncing := false }).sess.fs := by
  refine ⟨by decide, by decide, by decide, by decide⟩

/-- C3 (amended): calling `sync_file` twice in a row with no intervening
change performs no write on the second call — the digest-equality check
short-circuits (handler.py:131-133) — provided the first call leaves the
destination counterpart digest-equal to the source, which holds for
`keep_newest` and `overwrite` and for an absent or already-identical
destination, but NOT for `keep_both` on divergent content (where each call
adds a fresh duplicate). Hypotheses: dry-run off, source file present,
destination path not a directory, and the `keep_both` divergent case
excluded. -/
theorem c3_idempotent_outside_keep_both_divergence (h : Handler) (now1 now2 : Seg)
    (rel : FPath) (s0 : Session) (sf : File)
    (hdry : h.dry_run = false)
    (hrel : rel ≠ [])
    (hs : lookupFile s0.fs (h.source_dir ++ rel) = some sf)
    (hndir : s0.fs.dirs.contains (h.destination_dir ++ rel) = false)
    (hkb : h.conflict_settings.modified_files = "keep_both".data →
      pexists s0.fs (h.destination_dir ++ rel) = false ∨
      files_are_identical (lookupFile s0.fs (h.source_dir ++ rel))
        (lookupFile s0.fs (h.destination_dir ++ rel)) = true) :
    (sync_file h noFailOracle now2 (h.source_dir ++ rel)
        (sync_file h noFailOracle now1 (h.source_dir ++ rel) s0).sess).sess.fs =
      (sync_file h noFailOracle now1 (h.source_dir ++ rel) s0).sess.fs := by
  have hfs : ∀ (n : Seg) (s : Session),
      (sync_file h noFailOracle n (h.source_dir ++ rel) s).sess.fs =
        (syncBody h noFailOracle n (h.source_dir ++ rel) (h.destination_dir ++ rel)
          s.fs).1 := by
    intro n s
    rw [sync_file_fs, relpathSegs_append _ _ hrel]
  rw [hfs, hfs]
  by_cases hex : should_exclude h (h.source_dir ++ rel) = true
  · simp [syncBody, hex]
  · have hexf : should_exclude h (h.source_dir ++ rel) = false :=
      Bool.eq_false_iff.mpr hex
    have hnop : ∀ (n : Seg) (fs1 : Fs),
        lookupFile fs1 (h.source_dir ++ rel) = some sf →
        lookupFile fs1 (h.destination_dir ++ rel) = some sf →
        (syncBody h noFailOracle n (h.source_dir ++ rel) (h.destination_dir ++ rel)
          fs1).1 = fs1 := by
      intro n fs1 h1 h2
      unfold syncBody
      simp [hexf, pexists, h1, h2, files_are_identical]
    have hset_src : ∀ fsb : Fs, lookupFile fsb (h.source_dir ++ rel) = some sf →
        lookupFile (setFile (h.destination_dir ++ rel) sf fsb)
          (h.source_dir ++ rel) = some sf := by
      intro fsb hb
      rw [lookupFile_setFile]
      by_cases hsd : (h.source_dir ++ rel) = (h.destination_dir ++ rel)
      · rw [if_pos hsd]
      · rw [if_neg hsd]
        exact hb
    have hset_dest : ∀ fsb : Fs,
        lookupFile (setFile (h.destination_dir ++ rel) sf fsb)
          (h.destination_dir ++ rel) = some sf := by
      intro fsb
      rw [lookupFile_setFile, if_pos rfl]
    by_cases hpe : pexists s0.fs (h.destination_dir ++ rel) = true
    · have hsome : (lookupFile s0.fs (h.destination_dir ++ rel)).isSome = true := by
        unfold pexists at hpe
        rw [hndir] at hpe
        simpa using hpe
      obtain ⟨df, hdf⟩ := Option.isSome_iff_exists.mp hsome
      by_cases hid : sf.content = df.content
      · have hb1 : (syncBody h noFailOracle now1 (h.source_dir ++ rel)
            (h.destination_dir ++ rel) s0.fs).1 = s0.fs := by
          unfold syncBody
          simp [hexf, hpe, hs, hdf, files_are_identical, hid]
        rw [hb1]
        unfold syncBody
        simp [hexf, hpe, hs, hdf, files_are_identical, hid]
      · have hidf : files_are_identical (lookupFile s0.fs (h.source_dir ++ rel))
            (lookupFile s0.fs (h.destination_dir ++ rel)) = false := by
          simp [files_are_identical, hs, hdf, hid]
        by_cases hkbp : h.conflict_settings.modified_files = "keep_both".data
        · rcases hkb hkbp with hfalse | htrue
          · rw [hpe] at hfalse
            cases hfalse
          · rw [hidf] at htrue
            cases htrue
        · by_cases hkn : h.conflict_settings.modified_files = "keep_newest".data
          · have hgm : getmtimeD s0.fs (h.destination_dir ++ rel) = df.mtime := by
              simp [getmtimeD, hdf]
            by_cases hmt : sf.mtime > df.mtime
            · have hb1 : (syncBody h noFailOracle now1 (h.source_dir ++ rel)
                  (h.destination_dir ++ rel) s0.fs).1 =
                  setFile (h.destination_dir ++ rel) sf s0.fs := by
                unfold syncBody
                rw [hexf, hpe, hidf, hkn, hgm, hdry]
                simp [hkbp, hmt, copy2Step, noFailOracle, hs]
              rw [hb1]
              exact hnop now2 _ (hset_src s0.fs hs) (hset_dest s0.fs)
            · have hb1 : (syncBody h noFailOracle now1 (h.source_dir ++ rel)
                  (h.destination_dir ++ rel) s0.fs).1 = s0.fs := by
                unfold syncBody
                rw [hexf, hpe, hidf, hkn, hgm, hdry]
                simp [hs, hkbp, hmt]
              rw [hb1]
              unfold syncBody
              rw [hexf, hpe, hidf, hkn, hgm, hdry]
              simp [hs, hkbp, hmt]
          · have hb1 : (syncBody h noFailOracle now1 (h.source_dir ++ rel)
                (h.destination_dir ++ rel) s0.fs).1 =
                setFile (h.destination_dir ++ rel) sf s0.fs := by
              unfold syncBody
              rw [hexf, hpe, hidf, hdry]
              simp [hkbp, hkn, copy2Step, noFailOracle, hs]
            rw [hb1]
            exact hnop now2 _ (hset_src s0.fs hs) (hset_dest s0.fs)
    · have hpef : pexists s0.fs (h.destination_dir ++ rel) = false :=
        Bool.eq_false_iff.mpr hpe
      have hb1 : (syncBody h noFailOracle now1 (h.source_dir ++ rel)
          (h.destination_dir ++ rel) s0.fs).1 =
          setFile (h.destination_dir ++ rel) sf
            (makedirs (h.destination_dir ++ rel).dropLast s0.fs) := by
        unfold syncBody
        rw [hexf, hpef]
        simp [copy2Step, noFailOracle, lookupFile_makedirs, hs]
      rw [hb1]
      exact hnop now2 _
        (hset_src _ (by rw [lookupFile_makedirs]; exact hs)) (hset_dest _)

/-- C3 witness: the amended statement applied to the pair `/src` → `/dst`
with per-pair policy `overwrite` and divergent files: the first call
overwrites the destination, the second changes nothing. -/
theorem c3_idempotent_outside_keep_both_divergence_witness :
    Hover.dry_run = false ∧
    lookupFile FS0 (Hover.source_dir ++ ["a.txt".data]) = some fA ∧
    (sync_file Hover noFailOracle "ts2".data (Hover.source_dir ++ ["a.txt".data])
        (sync_file Hover noFailOracle "ts1".data (Hover.source_dir ++ ["a.txt".data])
          { fs := FS0, is_syncing := false }).sess).sess.fs =
      (sync_file Hover noFailOracle "ts1".data (Hover.source_dir ++ ["a.txt".data])
        { fs := FS0, is_syncing := false }).sess.fs :=
  ⟨rfl, rfl,
    c3_idempotent_outside_keep_both_divergence Hover "ts1".data "ts2".data
      ["a.txt".data] { fs := FS0, is_syncing := false } fA rfl (by decide) rfl
      (by decide) (by decide)⟩
